import Mathlib

/-!
Verification of the metric-fetch layer of the jeewanjyoti preorder-site dashboard.

The definitions below are shallow embeddings of the JavaScript source:
  - `src/lib/api.js` — URL construction for the per-metric fetch functions and
    the paginated fetch helper `fetchAllPages`;
  - `src/components/HeartRateDataComponent.jsx` — the panel fetch lifecycle
    (TTL cache, abort-controller bookkeeping, success/failure resolution) and
    the derived-statistic functions;
  - `src/components/SpO2DataComponent.jsx` — the SpO2 series processing
    (deduplication by timestamp, sorting) and its derived statistics.

JavaScript `null`/absent arguments are modelled as `Option`; the string values
actually passed by the panels (user ids, `YYYY-MM-DD` dates, range tokens) are
plain non-empty strings for which JS truthiness coincides with `Option.isSome`
and `URLSearchParams` percent-encoding is the identity.
-/

namespace JJ

/-! ### Query-string utilities (used only in theorem statements)

A small character-level parser that recovers the `key=value` pairs of a URL
query string, so that theorems can speak about "emits query parameter
`range=t`" independently of how the source concatenates the URL. -/

/-- Split a character list on a separator character (like JS `split`). -/
def splitOnChar (c : Char) : List Char → List (List Char)
  | [] => [[]]
  | x :: xs =>
    let rest := splitOnChar c xs
    if x = c then [] :: rest
    else match rest with
      | [] => [[x]]
      | r :: rs => (x :: r) :: rs

/-- Everything after the first `?` of a URL (empty if there is none). -/
def queryOfChars : List Char → List Char
  | [] => []
  | x :: xs => if x = '?' then xs else queryOfChars xs

/-- The `key=value` pairs of a URL's query string, in order. Fragments that are
not of the form `key=value` (e.g. the empty fragment produced by `?&`) are
dropped. -/
def queryParams (url : String) : List (String × String) :=
  (splitOnChar '&' (queryOfChars url.data)).filterMap fun kv =>
    match splitOnChar '=' kv with
    | [k, v] => some (⟨k⟩, ⟨v⟩)
    | _ => none

/-- `url` emits the query parameter `k=v`. -/
def hasParam (url k v : String) : Bool :=
  (queryParams url).contains (k, v)

/-- `url` emits some query parameter with key `k`. -/
def hasParamKey (url k : String) : Bool :=
  ((queryParams url).map Prod.fst).contains k

/-! ### URL construction, `src/lib/api.js`

`getSleepData`, `getSpO2Data`, `getHeartRateData`, `getBloodPressureData`,
`getStressData` and `getHRVData` all build their request URL with the same
literally-repeated `if`/`else if` chain, differing only in the endpoint path;
`buildMetricUrl` is that chain and the six definitions below instantiate it
with each function's path. `getStepsData` and `getDayTotalActivity` build
their URLs differently, via `URLSearchParams`. -/

def API_BASE_URL : String := "https://jeewanjyoti-backend.smart.org.np"

/-- The URL-building `if`/`else if` chain shared verbatim by the six
envelope-based fetch functions in `api.js`:
`if (fromDate && toDate) ... else if (range) ... else if (fromDate) ...
else if (toDate) ... else { url += "&range=24h" }`. -/
def buildMetricUrl (path : String) (userId fromDate toDate range : Option String) :
    String :=
  let url :=
    match userId with
    | some uid => path ++ "?user_id=" ++ uid
    | none => path ++ "?"
  match fromDate, toDate with
  | some f, some t =>
    match userId with
    | some uid => path ++ "?user_id=" ++ uid ++ "&from=" ++ f ++ "&to=" ++ t
    | none => path ++ "?from=" ++ f ++ "&to=" ++ t
  | _, _ =>
    match range with
    | some r => url ++ "&range=" ++ r
    | none =>
      match fromDate with
      | some f =>
        let url2 := url ++ "&from=" ++ f
        match toDate with
        | some t => url2 ++ "&to=" ++ t
        | none => url2
      | none =>
        match toDate with
        | some t => url ++ "&to=" ++ t
        | none => url ++ "&range=24h"

/-- URL built by `getSleepData` (api.js). -/
def getSleepDataUrl (userId fromDate toDate range : Option String) : String :=
  buildMetricUrl "/api/sleep-data/" userId fromDate toDate range

/-- URL built by `getSpO2Data` (api.js). -/
def getSpO2DataUrl (userId fromDate toDate range : Option String) : String :=
  buildMetricUrl "/api/Spo2-data/" userId fromDate toDate range

/-- URL built by `getHeartRateData` (api.js). -/
def getHeartRateDataUrl (userId fromDate toDate range : Option String) : String :=
  buildMetricUrl "/api/HeartRate_Data/" userId fromDate toDate range

/-- URL built by `getBloodPressureData` (api.js). -/
def getBloodPressureDataUrl (userId fromDate toDate range : Option String) : String :=
  buildMetricUrl "/api/BloodPressure_Data/" userId fromDate toDate range

/-- URL built by `getStressData` (api.js). -/
def getStressDataUrl (userId fromDate toDate range : Option String) : String :=
  buildMetricUrl "/api/Stress_Data/" userId fromDate toDate range

/-- URL built by `getHRVData` (api.js). -/
def getHRVDataUrl (userId fromDate toDate range : Option String) : String :=
  buildMetricUrl "/api/HRV_Iso_Data/" userId fromDate toDate range

/-- `URLSearchParams.toString()` for the plain (encoding-free) keys and values
used by `getStepsData` / `getDayTotalActivity`. -/
def urlParamsToString (params : List (String × String)) : String :=
  String.intercalate "&" (params.map fun p => p.1 ++ "=" ++ p.2)

/-- URL built by `getStepsData` (api.js). Parameters are appended in source
order (`user`, then the `from`/`to`/`range` chain); note the `else if (range)`
arm comes last and there is no `range=24h` default arm. -/
def getStepsDataUrl (userId fromDate toDate range : Option String) : String :=
  let url := "/api/Steps/"
  let params : List (String × String) :=
    (match userId with
     | some u => [("user", u)]
     | none => []) ++
    (match fromDate, toDate with
     | some f, some t => [("from", f), ("to", t)]
     | some f, none => [("from", f)]
     | none, some t => [("to", t)]
     | none, none =>
       match range with
       | some r => [("range", r)]
       | none => [])
  let qs := urlParamsToString params
  if qs = "" then url else url ++ "?" ++ qs

/-- URL built by `getDayTotalActivity` (api.js): `user_id` then `range`, each
appended only when present; no default range. -/
def getDayTotalActivityUrl (userId range : Option String) : String :=
  let url := "/api/Day_total_activity/"
  let params : List (String × String) :=
    (match userId with
     | some u => [("user_id", u)]
     | none => []) ++
    (match range with
     | some r => [("range", r)]
     | none => [])
  let qs := urlParamsToString params
  if qs = "" then url else url ++ "?" ++ qs

/-! ### JSON values and the paginated fetch helper `fetchAllPages` (api.js)

`fetchAllPages` loops `while (nextUrl)`, fetching each page and classifying
the body as a paginated envelope (`{results: [...], next, count}`), a bare
array, or a single record. The HTTP layer is modelled as a function
`server : String → HttpResponse` from the dispatched URL to the response;
the `while` loop becomes fuel-indexed structural recursion (the fuel is a
modelling artifact: theorems hold for every sufficiently large fuel). -/

/-- A JSON value as produced by `response.json()`. Numbers are modelled as
integers (no claim depends on fractional values). -/
inductive JVal where
  | jnull
  | jbool (b : Bool)
  | jnum (n : Int)
  | jstr (s : String)
  | jarr (elems : List JVal)
  | jobj (fields : List (String × JVal))

/-- JS truthiness of a JSON value (`data &&`, `if (data.next)`). -/
def jsTruthy : JVal → Bool
  | .jnull => false
  | .jbool b => b
  | .jnum n => n != 0
  | .jstr s => s != ""
  | .jarr _ => true
  | .jobj _ => true

/-- JS `String(v)` coercion; exact on the string case, which is the only case
a real backend produces for a `next` link. -/
def jsToString : JVal → String
  | .jnull => "null"
  | .jbool b => if b then "true" else "false"
  | .jnum n => toString n
  | .jstr s => s
  | .jarr xs => String.intercalate "," (xs.attach.map fun x => jsToString x.1)
  | .jobj _ => "[object Object]"
decreasing_by
  simp only [JVal.jarr.sizeOf_spec]
  have := List.sizeOf_lt_of_mem x.2
  omega

/-- Property lookup on a JSON object (JS objects have unique keys, so
first-match lookup is exact). -/
def lookupField : List (String × JVal) → String → Option JVal
  | [], _ => none
  | (k, v) :: rest, key => if k = key then some v else lookupField rest key

/-- The envelope guard of `fetchAllPages`:
`data && typeof data === 'object' && 'results' in data &&
Array.isArray(data.results)`, returning the `results` array when it holds.
`typeof null === 'object'` is irrelevant because `data &&` already excludes
`null`; arrays carry no `results` property. -/
def envelopeResults : JVal → Option (List JVal)
  | .jobj fields =>
    match lookupField fields "results" with
    | some (.jarr xs) => some xs
    | _ => none
  | _ => none

/-- `if (data.next)`: the `next` field of an envelope when it is truthy. -/
def envelopeNext : JVal → Option JVal
  | .jobj fields =>
    match lookupField fields "next" with
    | some v => if jsTruthy v then some v else none
    | none => none
  | _ => none

/-- `nextUrl.replace(/^http:\/\//, 'https://')` — the forced scheme upgrade
applied to absolute `next` URLs before dispatch. -/
def upgradeScheme (u : String) : String :=
  match u.data with
  | 'h' :: 't' :: 't' :: 'p' :: ':' :: '/' :: '/' :: rest =>
    ⟨'h' :: 't' :: 't' :: 'p' :: 's' :: ':' :: '/' :: '/' :: rest⟩
  | _ => u

/-- An HTTP response as seen by `fetchAllPages` after `response.json()`. -/
structure HttpResponse where
  status : Nat
  body : JVal

/-- JS `Response.ok`: status in the range 200–299. -/
def HttpResponse.ok (r : HttpResponse) : Bool :=
  200 ≤ r.status && r.status < 300

/-- Outcome of `fetchAllPages`: the combined results plus the number of HTTP
requests issued, or the thrown `Failed to fetch data: ${status}` error
(carrying the status and the number of requests issued up to and including
the failing one), or fuel exhaustion (never reached in the theorems below).
-/
inductive FetchOutcome where
  | ok (results : List JVal) (requests : Nat)
  | err (status : Nat) (requests : Nat)
  | outOfFuel

/-- The `while (nextUrl)` loop of `fetchAllPages` (api.js). The first page is
dispatched through `apiRequest` (which prepends `API_BASE_URL` to the
relative path); subsequent pages use the absolute `next` URL with the scheme
upgrade (`useAbsolute`). A non-ok response throws immediately, discarding
`allResults`. -/
def fetchPagesLoop (server : String → HttpResponse) :
    Nat → String → Bool → List JVal → Nat → FetchOutcome
  | 0, _, _, _, _ => .outOfFuel
  | fuel + 1, nextUrl, useAbsolute, allResults, reqs =>
    let dispatchUrl :=
      if useAbsolute then upgradeScheme nextUrl else API_BASE_URL ++ nextUrl
    let response := server dispatchUrl
    if ¬ response.ok then
      .err response.status (reqs + 1)
    else
      let data := response.body
      match envelopeResults data with
      | some results =>
        let acc := allResults ++ results
        match envelopeNext data with
        | some nxt => fetchPagesLoop server fuel (jsToString nxt) true acc (reqs + 1)
        | none => .ok acc (reqs + 1)
      | none =>
        match data with
        | .jarr xs => .ok (allResults ++ xs) (reqs + 1)
        | d => .ok (allResults ++ [d]) (reqs + 1)

/-- `fetchAllPages(initialUrl)` (api.js). -/
def fetchAllPages (server : String → HttpResponse) (fuel : Nat)
    (initialUrl : String) : FetchOutcome :=
  fetchPagesLoop server fuel initialUrl false [] 0

/-! ### The heart-rate panel, `src/components/HeartRateDataComponent.jsx`

The panel's fetch lifecycle (`fetchHeartRateData`) is a sequential
event-driven program: issuing a fetch runs synchronously up to the
`await getHeartRateData(...)`, and the eventual resolution (success or
failure) runs the remainder. It is embedded as explicit state transitions on
a `Panel` record holding the React state (`heartRateData`, `loading`,
`error`), the refs (`cacheRef`, `abortControllerRef`, `isMountedRef`) and a
log of `onHeartRateDataUpdate` invocations. Abort controllers are numbered;
`abortedIds` is the set of controllers whose `abort()` has been called.
Record `date` fields (ISO strings in the JSON) are represented by their
timestamp, and `Date.now()` by a `Nat` in milliseconds. -/

/-- One heart-rate record of the API response, with the fields the panel
reads. -/
structure HRRec where
  date : Nat
  once_heart_value : Int
deriving DecidableEq

/-- One entry of the per-panel `cacheRef` map: the stored series and the
`Date.now()` at which it was stored. -/
structure CacheEntry where
  data : List HRRec
  timestamp : Nat
deriving DecidableEq

/-- JS `Map.get`. -/
def mapGet : List (String × CacheEntry) → String → Option CacheEntry
  | [], _ => none
  | (k, v) :: rest, key => if k = key then some v else mapGet rest key

/-- JS `Map.set`: replace in place when the key exists, else append. -/
def mapSet : List (String × CacheEntry) → String → CacheEntry → List (String × CacheEntry)
  | [], key, v => [(key, v)]
  | (k, w) :: rest, key, v =>
    if k = key then (key, v) :: rest else (k, w) :: mapSet rest key v

/-- The freshness window: `5 * 60 * 1000` milliseconds. -/
def CACHE_TTL_MS : Nat := 5 * 60 * 1000

/-- Lines 70–88 of the component: `cache.has(key)` followed by the
`now - cacheTime < 5 * 60 * 1000` freshness test; a stale entry is treated
as absent (and not evicted). -/
def cacheLookupFresh (cache : List (String × CacheEntry)) (key : String)
    (now : Nat) : Option (List HRRec) :=
  match mapGet cache key with
  | some e => if now - e.timestamp < CACHE_TTL_MS then some e.data else none
  | none => none

/-- The stable ascending sort `data.sort((a, b) => new Date(a.date) - new
Date(b.date))`; `Array.prototype.sort` is stable, and a stable sort by the
`≤` comparator on the date key is exactly `List.insertionSort`. -/
def sortHRByDate (data : List HRRec) : List HRRec :=
  List.insertionSort (fun a b => a.date ≤ b.date) data

/-- A fetch attempt that reached the network: the abort controller created
for it and the cache key it computed. -/
structure InFlight where
  controllerId : Nat
  cacheKey : String
deriving DecidableEq

/-- The component-instance state: React state, refs, and the callback log. -/
structure Panel where
  heartRateData : List HRRec
  loading : Bool
  error : Option String
  cache : List (String × CacheEntry)
  current : Option Nat
  abortedIds : List Nat
  nextId : Nat
  mounted : Bool
  callbacks : List (List HRRec)

/-- The panel right after mount: `useState([])`, `useState(true)`,
`useState(null)`, empty cache map, no abort controller yet,
`isMountedRef.current = true`. -/
def initPanel : Panel :=
  { heartRateData := []
    loading := true
    error := none
    cache := []
    current := none
    abortedIds := []
    nextId := 0
    mounted := true
    callbacks := [] }

/-- `abortControllerRef.current.signal.aborted` — of the controller the ref
holds NOW, not the one a given fetch attempt created. -/
def currentAborted (st : Panel) : Bool :=
  match st.current with
  | some id => st.abortedIds.contains id
  | none => false

/-- The `finally` block (lines 140–144): `setLoading(false)` when still
mounted and the ref's current controller is not aborted. Runs on every exit
path of the async function, early `return`s included. -/
def finallyStep (st : Panel) : Panel :=
  if st.mounted && !(currentAborted st) then { st with loading := false } else st

/-- The synchronous part of `fetchHeartRateData` (lines 29–98): abort the
previous controller, install a fresh one, `setLoading(true)`,
`setError(null)`, then consult the cache — a fresh hit applies the cached
data, fires the parent callback and completes (through `finally`); a miss
leaves the request in flight (`some` handle) awaiting
`getHeartRateData`. -/
def issueFetch (st : Panel) (key : String) (now : Nat) : Panel × Option InFlight :=
  let abortedIds :=
    match st.current with
    | some id => id :: st.abortedIds
    | none => st.abortedIds
  let cid := st.nextId
  let st1 : Panel :=
    { st with
        abortedIds := abortedIds
        current := some cid
        nextId := st.nextId + 1
        loading := true
        error := none }
  match cacheLookupFresh st1.cache key now with
  | some cached =>
    let st2 :=
      if st1.mounted then
        { st1 with
            heartRateData := cached
            callbacks := st1.callbacks ++ [cached]
            loading := false }
      else st1
    (finallyStep st2, none)
  | none => (st1, some ⟨cid, key⟩)

/-- The success continuation of `fetchHeartRateData` (lines 100–128 plus
`finally`): the unmount/abort guard reads `abortControllerRef.current` — the
ref's CURRENT controller — then a non-empty result is sorted, cached under
the request's key and applied, while an empty result is applied as the
no-data state WITHOUT being cached; `onHeartRateDataUpdate` fires in both
branches. -/
def resolveSuccess (st : Panel) (req : InFlight) (data : List HRRec)
    (now : Nat) : Panel :=
  if !st.mounted || currentAborted st then finallyStep st
  else
    let st1 :=
      if data.length > 0 then
        let sorted := sortHRByDate data
        let stc := { st with cache := mapSet st.cache req.cacheKey ⟨sorted, now⟩ }
        if stc.mounted then
          { stc with
              heartRateData := sorted
              callbacks := stc.callbacks ++ [sorted] }
        else stc
      else
        if st.mounted then
          { st with heartRateData := [], callbacks := st.callbacks ++ [[]] }
        else st
    finallyStep st1

/-- A thrown JS error as tested by the catch block: its `name` and `code`. -/
structure JsError where
  name : String
  code : Option String
deriving DecidableEq

/-- `error.name === 'AbortError' || error.code === 'ERR_CANCELED'`. -/
def isAbortError (e : JsError) : Bool :=
  e.name == "AbortError" || e.code == some "ERR_CANCELED"

/-- The catch block of `fetchHeartRateData` (lines 129–139 plus `finally`):
aborts and unmounted-resolution are swallowed; any other error sets the
panel's retry-capable error message. Nothing escapes the catch, so the
continuation is a total function into `Panel`. -/
def resolveFailure (st : Panel) (e : JsError) : Panel :=
  let st1 :=
    if isAbortError e || !st.mounted then st
    else if st.mounted then
      { st with error := some "Failed to load heart rate data. Please try again." }
    else st
  finallyStep st1

/-! ### Derived statistics (HeartRateDataComponent.jsx lines 187–201,
SpO2DataComponent.jsx lines 208–222)

`Math.round(sum / length)` on integer samples is exact rational
round-half-toward-plus-infinity, `⌊(2·sum + n) / (2·n)⌋`; `Math.min`/
`Math.max` spread over a non-empty array are folds (the empty case of the
fold is unreachable behind each function's length guard). All four
embeddings are total Lean functions — the "does not throw" part of the
contract. -/

/-- `Math.round(sum / n)` for integer `sum` and `n > 0`, in exact rational
arithmetic. -/
def jsRoundDiv (sum : Int) (n : Nat) : Int :=
  Int.fdiv (2 * sum + n) (2 * n)

/-- `Math.min(...values)` over a non-empty list. -/
def jsMinList : List Int → Int
  | [] => 0
  | x :: xs => xs.foldl min x

/-- `Math.max(...values)` over a non-empty list. -/
def jsMaxList : List Int → Int
  | [] => 0
  | x :: xs => xs.foldl max x

/-- `calculateAverageHeartRate` — `0` on `null` or empty input. -/
def calculateAverageHeartRate (data : Option (List HRRec)) : Int :=
  match data with
  | none => 0
  | some l =>
    if l.length = 0 then 0
    else jsRoundDiv ((l.map (fun item => item.once_heart_value)).sum) l.length

/-- `calculateMinMaxHeartRate` — `{min: 0, max: 0}` on `null` or empty
input. -/
def calculateMinMaxHeartRate (data : Option (List HRRec)) : Int × Int :=
  match data with
  | none => (0, 0)
  | some l =>
    if l.length = 0 then (0, 0)
    else
      let values := l.map (fun item => item.once_heart_value)
      (jsMinList values, jsMaxList values)

/-- One SpO2 record with the fields the SpO2 panel reads: the raw `date`
string (the dedup key) and the oxygen value. -/
structure SpRec where
  date : String
  Blood_oxygen : Int
deriving DecidableEq

/-- `calculateAverageSpO2` (SpO2DataComponent.jsx) — `0` on `null` or empty
input. -/
def calculateAverageSpO2 (data : Option (List SpRec)) : Int :=
  match data with
  | none => 0
  | some l =>
    if l.length = 0 then 0
    else jsRoundDiv ((l.map (fun item => item.Blood_oxygen)).sum) l.length

/-- `calculateMinMaxSpO2` (SpO2DataComponent.jsx) — `{min: 0, max: 0}` on
`null` or empty input. -/
def calculateMinMaxSpO2 (data : Option (List SpRec)) : Int × Int :=
  match data with
  | none => (0, 0)
  | some l =>
    if l.length = 0 then (0, 0)
    else
      let values := l.map (fun item => item.Blood_oxygen)
      (jsMinList values, jsMaxList values)

/-! ### Series processing (SpO2DataComponent.jsx lines 169–205,
HeartRateDataComponent.jsx lines 163–184)

`processSpO2Data` first removes duplicates by the exact `date` value using a
`seenDates` set (keeping the first occurrence, in input order), then sorts
ascending by the parsed date. Date parsing (`new Date(s)` as a number) is an
abstract parameter `dv`; the trailing presentation map to locale-formatted
strings is display-only and omitted. `processHeartRateData` is a pure
per-item map — it removes nothing. -/

/-- The `forEach`/`seenDates` loop of `processSpO2Data`: keep an item only
when its exact `date` has not been seen yet. -/
def dedupByDate : List SpRec → List String → List SpRec
  | [], _ => []
  | item :: rest, seen =>
    if seen.contains item.date then dedupByDate rest seen
    else item :: dedupByDate rest (item.date :: seen)

/-- `processSpO2Data` up to the presentation map: the `!data || length 0`
guard, the dedup pass, then the stable ascending sort by parsed date. -/
def processSpO2Core (dv : String → Int) (data : Option (List SpRec)) :
    List SpRec :=
  match data with
  | none => []
  | some l =>
    if l.length = 0 then []
    else List.insertionSort (fun a b => dv a.date ≤ dv b.date) (dedupByDate l [])

/-- The fields of one point of the heart-rate chart data that are not
locale-formatted display strings. -/
structure HRChartPoint where
  value : Int
  date : Nat
deriving DecidableEq

/-- `processHeartRateData`: the `!data || length 0` guard and the per-item
map; one output point per input record, duplicates preserved. -/
def processHeartRateData (data : Option (List HRRec)) : List HRChartPoint :=
  match data with
  | none => []
  | some l =>
    if l.length = 0 then []
    else l.map (fun item => ⟨item.once_heart_value, item.date⟩)

/-! ### Concrete scenario inputs used by the witnesses and counterexamples -/

/-- A concrete three-page server chain (its page-2 link is an insecure
`http://` URL, exercising the scheme upgrade). -/
def chainServer : String → HttpResponse := fun url =>
  if url = API_BASE_URL ++ "/p1" then
    ⟨200, .jobj [("results", .jarr [.jnum 1]), ("next", .jstr "http://h/p2")]⟩
  else if url = "https://h/p2" then
    ⟨200, .jobj [("results", .jarr [.jnum 2]), ("next", .jstr "https://h/p3")]⟩
  else if url = "https://h/p3" then
    ⟨200, .jobj [("results", .jarr [.jnum 3]), ("next", .jnull)]⟩
  else ⟨404, .jnull⟩

/-- A two-page server whose second page answers HTTP 500. -/
def chainServer500 : String → HttpResponse := fun url =>
  if url = API_BASE_URL ++ "/p1" then
    ⟨200, .jobj [("results", .jarr [.jnum 1]), ("next", .jstr "https://h/p2")]⟩
  else ⟨500, .jnull⟩

/-- A server answering `null` on every request. -/
def nullServer : String → HttpResponse := fun _ => ⟨200, .jnull⟩

/-- The interleaving that violates C1: fetch A is issued, fetch B is issued
before A resolves (aborting A's controller and installing its own), and then
A resolves with data. -/
def racePanel : Panel :=
  let s1 := (issueFetch initPanel "null-24h" 0).1
  let s2 := (issueFetch s1 "null-24h" 0).1
  resolveSuccess s2 ⟨0, "null-24h"⟩ [⟨10, 72⟩] 0

/-- The scenario of C2: a fetch on a cold cache resolves successfully with
the empty result set. -/
def emptyResolvePanel : Panel :=
  let s1 := (issueFetch initPanel "null-24h" 0).1
  resolveSuccess s1 ⟨0, "null-24h"⟩ [] 0

end JJ

namespace JJ

/-- C6 (counterexample): the claim asserts that *every* metric fetch function
emits `range=24h` when neither a relative token nor dates are supplied, but
`getStepsData` called with all parameters absent builds the bare URL
`/api/Steps/` with no query string at all — no `range` parameter is emitted.
-/
theorem steps_no_default_range_counterexample :
    getStepsDataUrl none none none none = "/api/Steps/" ∧
    hasParam (getStepsDataUrl none none none none) "range" "24h" = false := by
  constructor
  · rfl
  · decide

/-- C6 (amended): for every relative token `t ∈ {24h, 7d, 30d}` with no
explicit dates, all eight metric fetch functions emit `range=t`; but the
`range=24h` default in the all-absent case holds only for the six
envelope-based functions (heart rate, SpO2, sleep, blood pressure, stress,
HRV) — `getStepsData` and `getDayTotalActivity` emit no `range` parameter
when no token and no dates are supplied. -/
theorem range_token_emission (t : String)
    (ht : t = "24h" ∨ t = "7d" ∨ t = "30d") :
    (hasParam (getHeartRateDataUrl none none none (some t)) "range" t = true ∧
     hasParam (getSpO2DataUrl none none none (some t)) "range" t = true ∧
     hasParam (getSleepDataUrl none none none (some t)) "range" t = true ∧
     hasParam (getBloodPressureDataUrl none none none (some t)) "range" t = true ∧
     hasParam (getStressDataUrl none none none (some t)) "range" t = true ∧
     hasParam (getHRVDataUrl none none none (some t)) "range" t = true ∧
     hasParam (getStepsDataUrl none none none (some t)) "range" t = true ∧
     hasParam (getDayTotalActivityUrl none (some t)) "range" t = true) ∧
    (hasParam (getHeartRateDataUrl none none none none) "range" "24h" = true ∧
     hasParam (getSpO2DataUrl none none none none) "range" "24h" = true ∧
     hasParam (getSleepDataUrl none none none none) "range" "24h" = true ∧
     hasParam (getBloodPressureDataUrl none none none none) "range" "24h" = true ∧
     hasParam (getStressDataUrl none none none none) "range" "24h" = true ∧
     hasParam (getHRVDataUrl none none none none) "range" "24h" = true) ∧
    (hasParamKey (getStepsDataUrl none none none none) "range" = false ∧
     hasParamKey (getDayTotalActivityUrl none none) "range" = false) := by
  rcases ht with h | h | h <;> subst h <;> exact ⟨by decide, by decide, by decide⟩

/-- C6 witness: the amended theorem applied at the concrete token `7d`. -/
theorem range_token_emission_witness :
    hasParam (getHeartRateDataUrl none none none (some "7d")) "range" "7d" = true :=
  (range_token_emission "7d" (Or.inr (Or.inl rfl))).1.1

/-- C3: for every chain of paginated responses in which page 1's `next` points
at page 2, page 2's at page 3 and page 3's `next` is `null`, `fetchAllPages`
returns the concatenation of the three pages' `results` arrays in page order
and issues exactly 3 HTTP requests (for every sufficient fuel `k + 3`). The
first page is dispatched at the base-URL-prefixed relative path, the later
pages at the scheme-upgraded absolute `next` URLs. -/
theorem fetchAllPages_three_page_chain
    (server : String → HttpResponse) (u1 u2 u3 : String)
    (r1 r2 r3 : List JVal)
    (h1 : server (API_BASE_URL ++ u1) =
      ⟨200, .jobj [("results", .jarr r1), ("next", .jstr u2)]⟩)
    (hu2 : u2 ≠ "")
    (h2 : server (upgradeScheme u2) =
      ⟨200, .jobj [("results", .jarr r2), ("next", .jstr u3)]⟩)
    (hu3 : u3 ≠ "")
    (h3 : server (upgradeScheme u3) =
      ⟨200, .jobj [("results", .jarr r3), ("next", .jnull)]⟩)
    (k : Nat) :
    fetchAllPages server (k + 3) u1 = .ok (r1 ++ r2 ++ r3) 3 := by
  simp [fetchAllPages, fetchPagesLoop, h1, h2, h3, hu2, hu3,
        envelopeResults, envelopeNext, lookupField, jsTruthy, jsToString,
        HttpResponse.ok]

/-- C3 witness: the chain theorem applied to `chainServer` (whose page-2 link
is an insecure `http://` URL, exercising the scheme upgrade). -/
theorem fetchAllPages_three_page_chain_witness :
    fetchAllPages chainServer 3 "/p1" =
      .ok ([.jnum 1] ++ [.jnum 2] ++ [.jnum 3]) 3 :=
  fetchAllPages_three_page_chain chainServer "/p1" "http://h/p2" "https://h/p3"
    [.jnum 1] [.jnum 2] [.jnum 3] rfl (by decide) rfl (by decide) rfl 0

/-- C4: if a later page of a paginated fetch returns a non-success status
(page 2 here), `fetchAllPages` fails with the error carrying that HTTP status
after exactly 2 requests; the outcome is `err`, which carries no results, so
the page-1 partial results are discarded, and page 3 is never requested. -/
theorem fetchAllPages_aborts_on_error
    (server : String → HttpResponse) (u1 u2 : String)
    (r1 : List JVal) (s : Nat) (body2 : JVal)
    (h1 : server (API_BASE_URL ++ u1) =
      ⟨200, .jobj [("results", .jarr r1), ("next", .jstr u2)]⟩)
    (hu2 : u2 ≠ "")
    (h2 : server (upgradeScheme u2) = ⟨s, body2⟩)
    (hs : s < 200 ∨ 300 ≤ s)
    (k : Nat) :
    fetchAllPages server (k + 2) u1 = .err s 2 := by
  have hok : (⟨s, body2⟩ : HttpResponse).ok = false := by
    simp only [HttpResponse.ok, Bool.and_eq_false_iff, decide_eq_false_iff_not,
      not_le, not_lt]
    omega
  have h200 : ∀ b : JVal, (⟨200, b⟩ : HttpResponse).ok = true := fun _ => rfl
  simp [fetchAllPages, fetchPagesLoop, h1, h2, hok, hu2, h200,
        envelopeResults, envelopeNext, lookupField, jsTruthy, jsToString]

/-- C4 witness: the abort theorem applied to `chainServer500`. -/
theorem fetchAllPages_aborts_on_error_witness :
    fetchAllPages chainServer500 2 "/p1" = .err 500 2 :=
  fetchAllPages_aborts_on_error chainServer500 "/p1" "https://h/p2"
    [.jnum 1] 500 .jnull rfl (by decide) rfl (Or.inr (by decide)) 0

/-- C10: a first-page body that is neither a paginated envelope (an object
with an array-valued `results` field) nor an array — including `null`, a
number or a string — is treated as a single record: `fetchAllPages` returns
the one-element list holding that body verbatim, issues exactly 1 request and
raises no error. -/
theorem fetchAllPages_single_record
    (server : String → HttpResponse) (u1 : String) (b : JVal)
    (hserv : server (API_BASE_URL ++ u1) = ⟨200, b⟩)
    (henv : envelopeResults b = none)
    (harr : ∀ xs, b ≠ .jarr xs)
    (k : Nat) :
    fetchAllPages server (k + 1) u1 = .ok [b] 1 := by
  rcases b with _ | bb | n | s | xs | fl
  case jarr => exact absurd rfl (harr xs)
  all_goals
    simp [fetchAllPages, fetchPagesLoop, hserv, henv, HttpResponse.ok]

/-- C10 witness: the single-record theorem applied to `nullServer`, whose
body `null` is neither an envelope nor an array nor even an object. -/
theorem fetchAllPages_single_record_witness :
    fetchAllPages nullServer 1 "/p1" = .ok [.jnull] 1 :=
  fetchAllPages_single_record nullServer "/p1" .jnull rfl rfl
    (fun _ h => JVal.noConfusion h) 0

/-- `Map.set` followed by `Map.get` at the same key yields the new entry. -/
theorem mapGet_mapSet (cache : List (String × CacheEntry)) (key : String)
    (e : CacheEntry) : mapGet (mapSet cache key e) key = some e := by
  induction cache with
  | nil => simp [mapGet, mapSet]
  | cons kv rest ih =>
    obtain ⟨k, w⟩ := kv
    by_cases h : k = key
    · simp [mapGet, mapSet, h]
    · simp [mapGet, mapSet, h, ih]

/-- C5: after `put(key, v)` at time `tput` with no intervening put, every
lookup strictly within the 5-minute window returns `v` (so any two such
lookups both return `v`), and every lookup at or beyond 5 minutes after the
put reports absent (forcing a refetch). -/
theorem cache_ttl_fresh_and_stale
    (cache : List (String × CacheEntry)) (key : String) (v : List HRRec)
    (tput t1 t2 : Nat)
    (h1 : t1 < tput + CACHE_TTL_MS)
    (h2 : tput + CACHE_TTL_MS ≤ t2) :
    cacheLookupFresh (mapSet cache key ⟨v, tput⟩) key t1 = some v ∧
    cacheLookupFresh (mapSet cache key ⟨v, tput⟩) key t2 = none := by
  have hget := mapGet_mapSet cache key ⟨v, tput⟩
  have hf : t1 - tput < CACHE_TTL_MS := by
    simp only [CACHE_TTL_MS] at h1 ⊢
    omega
  have hstale : ¬ t2 - tput < CACHE_TTL_MS := by
    simp only [CACHE_TTL_MS] at h2 ⊢
    omega
  constructor
  · simp [cacheLookupFresh, hget, hf]
  · simp [cacheLookupFresh, hget, hstale]

/-- C5 witness: a put at time 0; a get at 299 999 ms (just inside the
window) returns the value, a get at 300 000 ms reports absent. -/
theorem cache_ttl_fresh_and_stale_witness :
    cacheLookupFresh (mapSet [] "null-24h" ⟨[⟨0, 72⟩], 0⟩) "null-24h" 299999 =
      some [⟨0, 72⟩] ∧
    cacheLookupFresh (mapSet [] "null-24h" ⟨[⟨0, 72⟩], 0⟩) "null-24h" 300000 =
      none :=
  cache_ttl_fresh_and_stale [] "null-24h" [⟨0, 72⟩] 0 299999 300000
    (by decide) (by decide)

/-- C1 (code bug): in the A-then-B race the claim requires A's resolution to
leave visible state untouched, but the code applies A's data: the staleness
guard reads `abortControllerRef.current.signal.aborted` — the ref now holds
B's (un-aborted) controller, so the guard passes — and A's own aborted
controller is never wired into the HTTP call, so A resolves normally. The
stale fetch A mutates `heartRateData` and fires the parent callback. -/
theorem stale_request_mutates_state :
    racePanel.heartRateData = [⟨10, 72⟩] ∧
    racePanel.callbacks = [[⟨10, 72⟩]] ∧
    initPanel.heartRateData = [] := by
  decide

/-- C2 (counterexample): the claim asserts the empty result is stored in the
TTL cache so that a refresh within 5 minutes is served from cache; but after
an empty resolution the cache is still empty, and a refresh with the same
key 1 second later misses the cache and goes back to the network (an
in-flight request is returned). -/
theorem empty_result_not_cached_counterexample :
    emptyResolvePanel.heartRateData = [] ∧
    emptyResolvePanel.error = none ∧
    emptyResolvePanel.loading = false ∧
    emptyResolvePanel.cache = [] ∧
    (issueFetch emptyResolvePanel "null-24h" 1000).2 = some ⟨1, "null-24h"⟩ := by
  decide

/-- C2 (amended): when a fetch resolves successfully with an empty result
set, the panel renders the no-data state (`heartRateData = []`, no error,
not loading) and notifies the parent with the empty series, but the empty
result is NOT cached: the cache is left unchanged, and a repeated refresh
with the same key misses the cache and issues a new network request. Stated
for any mounted panel whose cache has no entry for the key and whose
controller bookkeeping is consistent (the fresh controller id is unused). -/
theorem empty_result_no_data_state
    (st : Panel) (key : String) (now now2 : Nat)
    (hm : st.mounted = true)
    (hnone : mapGet st.cache key = none)
    (hfresh : st.abortedIds.contains st.nextId = false)
    (hcur : st.current ≠ some st.nextId) :
    let s2 := resolveSuccess (issueFetch st key now).1 ⟨st.nextId, key⟩ [] now
    s2.heartRateData = [] ∧ s2.error = none ∧ s2.loading = false ∧
    s2.callbacks = st.callbacks ++ [[]] ∧
    s2.cache = st.cache ∧
    (issueFetch s2 key now2).2 = some ⟨s2.nextId, key⟩ := by
  obtain ⟨d0, l0, e0, c0, cur0, ab0, nid0, m0, cb0⟩ := st
  simp only at hm hnone hfresh hcur ⊢
  subst hm
  cases cur0 with
  | none =>
    have hfresh' : ¬ nid0 ∈ ab0 := by simpa using hfresh
    simp [issueFetch, resolveSuccess, finallyStep, currentAborted,
          cacheLookupFresh, hnone, hfresh']
  | some id =>
    have hid : id ≠ nid0 := fun h => hcur (by rw [h])
    have hfresh' : ¬ nid0 ∈ id :: ab0 := by
      simp only [List.mem_cons]
      rintro (h | h)
      · exact hid h.symm
      · exact absurd h (by simpa using hfresh)
    simp [issueFetch, resolveSuccess, finallyStep, currentAborted,
          cacheLookupFresh, hnone, hfresh']

/-- C2 witness: the amended theorem applied to the freshly mounted panel. -/
theorem empty_result_no_data_state_witness :
    (resolveSuccess (issueFetch initPanel "null-24h" 0).1 ⟨0, "null-24h"⟩ [] 0).heartRateData
      = [] :=
  (empty_result_no_data_state initPanel "null-24h" 0 1000 rfl rfl rfl
    (by decide)).1

/-- C9: a fetch that fails with a non-abort error is caught at the panel
boundary — the catch-block continuation is a total function on `Panel`, so
nothing propagates up the component tree — the panel enters the
retry-capable error state (error message set, loading cleared; the error
render wires the Retry button back to `fetchHeartRateData`), the parent
callback is NOT invoked, and the held series is untouched. -/
theorem fetch_error_caught_at_panel
    (st : Panel) (key : String) (now : Nat) (e : JsError)
    (hm : st.mounted = true)
    (hnone : mapGet st.cache key = none)
    (hfresh : st.abortedIds.contains st.nextId = false)
    (hcur : st.current ≠ some st.nextId)
    (he : isAbortError e = false) :
    (issueFetch st key now).2 = some ⟨st.nextId, key⟩ ∧
    (resolveFailure (issueFetch st key now).1 e).error =
      some "Failed to load heart rate data. Please try again." ∧
    (resolveFailure (issueFetch st key now).1 e).loading = false ∧
    (resolveFailure (issueFetch st key now).1 e).callbacks = st.callbacks ∧
    (resolveFailure (issueFetch st key now).1 e).heartRateData = st.heartRateData := by
  obtain ⟨d0, l0, e0, c0, cur0, ab0, nid0, m0, cb0⟩ := st
  simp only at hm hnone hfresh hcur ⊢
  subst hm
  cases cur0 with
  | none =>
    have hfresh' : ¬ nid0 ∈ ab0 := by simpa using hfresh
    simp [issueFetch, resolveFailure, finallyStep, currentAborted,
          cacheLookupFresh, hnone, hfresh', he]
  | some id =>
    have hid : id ≠ nid0 := fun h => hcur (by rw [h])
    have hfresh' : ¬ nid0 ∈ id :: ab0 := by
      simp only [List.mem_cons]
      rintro (h | h)
      · exact hid h.symm
      · exact absurd h (by simpa using hfresh)
    simp [issueFetch, resolveFailure, finallyStep, currentAborted,
          cacheLookupFresh, hnone, hfresh', he]

/-- C9 witness: a plain network `Error` (not an abort) against the freshly
mounted panel. -/
theorem fetch_error_caught_at_panel_witness :
    (issueFetch initPanel "null-24h" 0).2 = some ⟨0, "null-24h"⟩ :=
  (fetch_error_caught_at_panel initPanel "null-24h" 0 ⟨"Error", none⟩ rfl rfl
    rfl (by decide) (by decide)).1

/-- C7: on the empty sequence and on `null` input, the derived-statistic
functions of the heart-rate and SpO2 panels return their guards' fallbacks —
`0` for the averages and `{min: 0, max: 0}` for min/max — and, being total
Lean functions, do not throw. -/
theorem derived_stats_empty_safe :
    calculateAverageHeartRate none = 0 ∧
    calculateAverageHeartRate (some []) = 0 ∧
    calculateMinMaxHeartRate none = (0, 0) ∧
    calculateMinMaxHeartRate (some []) = (0, 0) ∧
    calculateAverageSpO2 none = 0 ∧
    calculateAverageSpO2 (some []) = 0 ∧
    calculateMinMaxSpO2 none = (0, 0) ∧
    calculateMinMaxSpO2 (some []) = (0, 0) :=
  ⟨rfl, rfl, rfl, rfl, rfl, rfl, rfl, rfl⟩

/-- A date already recorded in `seenDates` never reappears in the dedup
output. -/
theorem dedupByDate_filter_seen (d : String) (data : List SpRec) :
    ∀ seen : List String, d ∈ seen →
      (dedupByDate data seen).filter (fun x => x.date == d) = [] := by
  induction data with
  | nil =>
    intro seen _
    simp [dedupByDate]
  | cons item rest ih =>
    intro seen hseen
    by_cases h : item.date ∈ seen
    · simpa [dedupByDate, h] using ih seen hseen
    · have hne : item.date ≠ d := fun hEq => h (hEq ▸ hseen)
      simp only [dedupByDate, List.contains, List.elem_eq_mem, decide_eq_true_eq]
      rw [if_neg h]
      rw [List.filter_cons_of_neg (by simp [hne])]
      exact ih (item.date :: seen) (List.mem_cons_of_mem _ hseen)

/-- For a date not yet seen, the dedup output retains exactly the FIRST
occurrence from the input (in input order), and nothing else. -/
theorem dedupByDate_filter_not_seen (d : String) (data : List SpRec) :
    ∀ seen : List String, d ∉ seen →
      (dedupByDate data seen).filter (fun x => x.date == d) =
        (data.find? (fun x => x.date == d)).toList := by
  induction data with
  | nil =>
    intro seen _
    simp [dedupByDate]
  | cons item rest ih =>
    intro seen hseen
    by_cases h : item.date ∈ seen
    · have hne : item.date ≠ d := fun hEq => hseen (hEq ▸ h)
      simp only [dedupByDate, List.contains, List.elem_eq_mem, decide_eq_true_eq]
      rw [if_pos h]
      rw [List.find?_cons_of_neg _ (by simp [hne])]
      exact ih seen hseen
    · by_cases hd : item.date = d
      · subst hd
        simp only [dedupByDate, List.contains, List.elem_eq_mem, decide_eq_true_eq]
        rw [if_neg h]
        rw [List.filter_cons_of_pos (by simp)]
        rw [List.find?_cons_of_pos _ (by simp)]
        simp only [Option.toList_some, List.cons.injEq, true_and]
        exact dedupByDate_filter_seen _ rest (item.date :: seen)
          (List.mem_cons_self _ _)
      · have hseen2 : d ∉ item.date :: seen := by
          intro hmem
          rcases List.mem_cons.mp hmem with hEq | hmem2
          · exact hd hEq.symm
          · exact hseen hmem2
        simp only [dedupByDate, List.contains, List.elem_eq_mem, decide_eq_true_eq]
        rw [if_neg h]
        rw [List.filter_cons_of_neg (by simp [hd])]
        rw [List.find?_cons_of_neg _ (by simp [hd])]
        exact ih (item.date :: seen) hseen2

/-- C8: the SpO2 panel's series processing deduplicates samples with
identical timestamps down to the single FIRST occurrence before sorting
(for every date `d`, the output's samples at `d` are exactly the input's
first sample at `d`), the output is sorted ascending by parsed date, and the
heart-rate panel's processing removes nothing: it maps input records
one-to-one, preserving duplicate timestamps. -/
theorem spo2_dedups_hr_preserves
    (dv : String → Int) (l : List SpRec) (d : String) (hl : List HRRec) :
    (processSpO2Core dv (some l)).filter (fun x => x.date == d) =
      (l.find? (fun x => x.date == d)).toList ∧
    List.Pairwise (fun a b => dv a.date ≤ dv b.date)
      (processSpO2Core dv (some l)) ∧
    (processHeartRateData (some hl)).map (fun p => p.date) =
      hl.map (fun r => r.date) := by
  refine ⟨?_, ?_, ?_⟩
  · cases l with
    | nil => simp [processSpO2Core]
    | cons a t =>
      have hcore : processSpO2Core dv (some (a :: t)) =
          List.insertionSort (fun x y => dv x.date ≤ dv y.date)
            (dedupByDate (a :: t) []) := by
        simp [processSpO2Core]
      have hperm := List.perm_insertionSort
        (fun x y => dv x.date ≤ dv y.date) (dedupByDate (a :: t) [])
      have hfilter := hperm.filter (fun x => x.date == d)
      rw [dedupByDate_filter_not_seen d (a :: t) []
        (List.not_mem_nil d)] at hfilter
      rw [hcore]
      cases hfind : (a :: t).find? (fun x => x.date == d) with
      | none =>
        rw [hfind] at hfilter
        simpa using hfilter.eq_nil
      | some a0 =>
        rw [hfind] at hfilter
        simpa using hfilter
  · cases l with
    | nil => simp [processSpO2Core]
    | cons a t =>
      haveI : IsTotal SpRec (fun x y => dv x.date ≤ dv y.date) :=
        ⟨fun x y => Int.le_total _ _⟩
      haveI : IsTrans SpRec (fun x y => dv x.date ≤ dv y.date) :=
        ⟨fun x y z hxy hyz => le_trans hxy hyz⟩
      have hcore : processSpO2Core dv (some (a :: t)) =
          List.insertionSort (fun x y => dv x.date ≤ dv y.date)
            (dedupByDate (a :: t) []) := by
        simp [processSpO2Core]
      rw [hcore]
      exact List.sorted_insertionSort _ _
  · cases hl with
    | nil => simp [processHeartRateData]
    | cons a t => simp [processHeartRateData, Function.comp]

end JJ
